import Mathlib

/-!
Shallow embedding of the core of the geoh5py workspace/entity model,
translated from the Python sources under `geoh5py/`, together with proofs
about the behaviours the specification describes.

Conventions used throughout:
* Python `dict`s keyed by `uuid.UUID` become association lists
  `List (Nat × _)` whose keys are unique (as in a `dict`);
* a `weakref.ReferenceType` slot becomes an `Option` value: `none` models a
  reference whose referent has been garbage collected;
* Python exceptions become `Except String _` results, the string being the
  exception class or message;
* `uuid.UUID` values become `Nat` identifiers (only equality matters).
-/

set_option autoImplicit false

namespace Geoh5

/-! ### Workspace file handle and `Workspace._io_call` (workspace/workspace.py) -/

/-- The h5py file slot of a `Workspace`: `geoh5 = none` models the closed state
(`self._geoh5 is None`); `some m` models an open `h5py.File` in mode `m`. -/
structure WsFile where
  geoh5 : Option String

/-- Message of the `UserWarning` raised by `_io_call` on a read-only file
(the Python message also interpolates the repr of the writer function, which
carries no semantic content and is dropped here). -/
def readOnlyMsg : String :=
  "Attempting to write to a geoh5 file in read-only mode."

/-- The `Workspace._io_call`: run an `H5Writer`/`H5Reader` function `funh` (a state
transformer on the file contents `σ`) after validating the target geoh5.
Accessing `self.geoh5` on a closed workspace raises `Geoh5FileClosedError`;
a call with `mode` in `["r+", "a"]` against a file whose h5py mode is `"r"`
raises the read-only `UserWarning` before the writer function is invoked. -/
def io_call {σ : Type} (ws : WsFile) (funh : σ → σ) (mode : String) (s : σ) :
    Except String σ :=
  match ws.geoh5 with
  | none => .error "Geoh5FileClosedError"
  | some fileMode =>
    if (mode = "r+" ∨ mode = "a") ∧ fileMode = "r" then
      .error readOnlyMsg
    else
      .ok (funh s)

/-- The slice of an entity's state consulted by `Workspace.update_attribute`:
only the `on_file` flag matters for write gating. -/
structure EntityRec where
  on_file : Bool

/-- The `Workspace.save_entity` (non-concatenated branch): delegates to
`H5Writer.save_entity` through `_io_call` with mode `"r+"`. -/
def save_entity {σ : Type} (ws : WsFile) (writer : σ → σ) (s : σ) :
    Except String σ :=
  io_call ws writer "r+" s

/-- The `Workspace.update_attribute` (non-concatenated, no channel): if the entity
is `on_file`, runs `H5Writer.update_field` then `H5Writer.clear_stats_cache`,
each through `_io_call` with mode `"r+"`; otherwise does nothing. -/
def update_attribute {σ : Type} (ws : WsFile) (e : EntityRec)
    (update_field clear_stats_cache : σ → σ) (s : σ) : Except String σ :=
  if e.on_file then do
    let s1 ← io_call ws update_field "r+" s
    io_call ws clear_stats_cache "r+" s1
  else
    .ok s

/-- The final write of `Workspace.remove_recursively` (reached from
`Workspace.remove_entity`): `H5Writer.remove_entity` through `_io_call`
with mode `"r+"`. -/
def remove_entity_write {σ : Type} (ws : WsFile) (writer : σ → σ) (s : σ) :
    Except String σ :=
  io_call ws writer "r+" s

/-! ### `EntityType.workspace` setter (shared/entity_type.py) -/

/-- Argument handed to the `EntityType.workspace` setter; the setter accepts
anything exposing `create_entity` (`hasattr(workspace, "create_entity")`). -/
inductive WsArg where
  | workspace (id : Nat)
  | notWorkspace
  deriving DecidableEq

/-- The attributes of an `EntityType` instance that its `__init__` assigns.
`_workspace = none` models the `_workspace` attribute not existing yet
(`hasattr(self, "_workspace")` false); `some i` models a set weak reference. -/
structure EntityTypeState where
  _on_file : Bool
  _uid : Nat
  _description : Option String
  _name : Option String
  _workspace : Option Nat
  deriving DecidableEq

/-- The `EntityType.workspace` setter: raises `AssertionError` if the
`_workspace` attribute already exists, raises `TypeError` if the argument
does not expose `create_entity`, and otherwise stores a weak reference. -/
def workspace_setter (t : EntityTypeState) (w : WsArg) :
    Except String EntityTypeState :=
  if t._workspace.isSome then
    .error "Cannot change the workspace of an entity type."
  else
    match w with
    | .notWorkspace => .error "TypeError: Workspace must be a Workspace"
    | .workspace i => .ok { t with _workspace := some i }

/-- The `EntityType.__init__`: sets `_on_file := False`, the uid, description and
name, then assigns `self.workspace = workspace` through the setter above
(`entity_class` is irrelevant to the workspace back-reference and elided). -/
def EntityType_init (w : WsArg) (uid : Nat) (description name : Option String) :
    Except String EntityTypeState :=
  workspace_setter
    { _on_file := false, _uid := uid, _description := description,
      _name := name, _workspace := none } w

/-! ### `Workspace.h5file` setter (workspace/workspace.py) -/

/-- Values assignable to `Workspace.h5file`: a `str`, a `pathlib.Path`,
an `io.BytesIO` buffer (with an abstract identifier), or anything else. -/
inductive H5FileArg where
  | str (s : String)
  | path (p : String)
  | bytes_buffer (n : Nat)
  | other
  deriving DecidableEq

/-- Whether `str(file).endswith("geoh5")` holds, computed on the underlying
character list. -/
def endswith_geoh5 (s : String) : Bool :=
  "geoh5".data.isSuffixOf s.data

/-- The `Workspace.h5file` setter: a `str` or `Path` must end in `"geoh5"`,
an `io.BytesIO` is accepted unconditionally, anything else is rejected. -/
def h5file_setter (file : H5FileArg) : Except String H5FileArg :=
  match file with
  | .str s =>
    if ¬ endswith_geoh5 s then
      .error "Input 'h5file' file must have a 'geoh5' extension."
    else
      .ok (.str s)
  | .path p =>
    if ¬ endswith_geoh5 p then
      .error "Input 'h5file' file must have a 'geoh5' extension."
    else
      .ok (.path p)
  | .bytes_buffer n => .ok (.bytes_buffer n)
  | .other =>
    .error "The 'h5file' attribute must be a str, pathlib.Path or bytes to the target geoh5 file."

/-! ### `ReferenceValueMap.validate_value_map` (data/reference_value_map.py) -/

/-- The `ReferenceValueMap.validate_value_map` on a `dict` argument, the keys being
integers and the values strings (the numpy-structured-array input branches
normalise to the same key/value pairs; the `<U13` dtype truncation of values
longer than 13 characters is not modelled, no claim depends on it).
The source rejects a dictionary containing a negative key with `KeyError`;
on an empty dictionary `value_list[0]` raises `IndexError`; otherwise the
pairs are packed into the structured array and returned.  No constraint is
placed on the value stored under key `0`. -/
def validate_value_map (value_map : List (Int × String)) :
    Except String (List (Int × String)) :=
  if ¬ value_map.all (fun p => 0 ≤ p.1) then
    .error "KeyError: Key must be an positive integer"
  else
    match value_map with
    | [] => .error "IndexError: list index out of range"
    | _ => .ok value_map

/-- The `dict(self._map)[item]`: lookup of a key in the validated map, as used by
`ReferenceValueMap.__getitem__`. -/
def value_map_get (value_map : List (Int × String)) (item : Int) :
    Option String :=
  value_map.lookup item

/-! ### `IntegerData.check_type` (data/integer_data.py) -/

/-- The `values.astype(np.int32)` on one element: truncation toward zero
(32-bit wrap-around on out-of-range magnitudes is not modelled; the inputs
considered stay far inside the `int32` range). -/
def astype_int32 (q : ℚ) : ℤ :=
  if 0 ≤ q then ⌊q⌋ else ⌈q⌉

/-- The `IntegerData.check_type`: raises `TypeError` when
`np.sum(values - values.astype(np.int32)) != 0`, i.e. when the *sum* of the
elementwise fractional parts is non-zero; otherwise returns
`values.astype(np.int32)`. -/
def check_type (values : List ℚ) : Except String (List ℤ) :=
  if (values.map (fun v => v - (astype_int32 v : ℚ))).sum ≠ 0 then
    .error "TypeError: Values cannot have decimal points."
  else
    .ok (values.map astype_int32)

/-! ### The repack block of `Workspace.close` (workspace/workspace.py) -/

/-- Filesystem-visible steps of the repack block of `Workspace.close`. -/
inductive FileOp where
  | runRepack
  | removeOriginal
  | moveTempToOriginal
  deriving DecidableEq

/-- Outcome of the external `h5repack` subprocess (`check=True` turns a
non-zero exit status into `CalledProcessError`). -/
inductive RepackOutcome where
  | success
  | calledProcessError
  deriving DecidableEq

/-- The `subprocess.run("h5repack ...", check=True, shell=True)`: appends its
step to the effect trace on success, raises `CalledProcessError` (carrying
the effects already performed) on failure. -/
def subprocess_run_repack (outcome : RepackOutcome) (ops : List FileOp) :
    Except (List FileOp) (List FileOp) :=
  match outcome with
  | .success => .ok (ops ++ [.runRepack])
  | .calledProcessError => .error ops

/-- The `try` body of the repack block:
`subprocess.run(...)`: then `os.remove(self.h5file)`; then
`shutil.move(temp_file, self.h5file)`. -/
def repack_try_body (outcome : RepackOutcome) (ops : List FileOp) :
    Except (List FileOp) (List FileOp) := do
  let ops1 ← subprocess_run_repack outcome ops
  let ops2 := ops1 ++ [.removeOriginal]
  pure (ops2 ++ [.moveTempToOriginal])

/-- The repack block of `Workspace.close` for a file-path workspace with
`repack` set: the `try` body above under `except CalledProcessError: pass`.
Returns the trace of filesystem operations performed and whether an
exception escaped the block. -/
def close_repack_block (outcome : RepackOutcome) : List FileOp × Bool :=
  match repack_try_body outcome [] with
  | .ok ops => (ops, false)
  | .error ops => (ops, false)

/-- State of the original geoh5 file at its path while the repack block runs:
it holds the original bytes, or has been deleted, or has been replaced by the
repacked copy. -/
inductive OriginalFileState where
  | originalBytes
  | deleted
  | repackedBytes
  deriving DecidableEq

/-- Effect of one filesystem step on the file found at the workspace path.
`h5repack` itself only writes the temporary file. -/
def apply_op (s : OriginalFileState) (op : FileOp) : OriginalFileState :=
  match op with
  | .runRepack => s
  | .removeOriginal => .deleted
  | .moveTempToOriginal => .repackedBytes

/-! ### Workspace entity registry and `get_entity` (workspace/workspace.py) -/

/-- The attributes of a registered entity consulted by the lookup methods. -/
structure SEntity where
  uid : Nat
  name : String
  deriving DecidableEq

/-- One of the workspace's weak-reference registries (`self._groups`,
`self._objects`, `self._data`): a `dict` from uid to `weakref.ReferenceType`;
a `none` value models an entry whose referent has been reclaimed. -/
abbrev Registry : Type := List (Nat × Option SEntity)

/-- First value stored under key `k` (Python `dict` lookup; the keys of a
`dict` are unique, so at most one entry matches). -/
def assoc_find {α : Type} (l : List (Nat × α)) (k : Nat) : Option α :=
  match l with
  | [] => none
  | (a, b) :: t => if a = k then some b else assoc_find t k

/-- Modelled from the spec: `weakref_utils.get_clean_ref` (shared/weakref_utils.py
is not under src/) — "find_type, find_group, find_object, find_data, find_entity:
weak-reference dereference with dead-entry sweep":  dereference the weak
reference stored under `uid`, returning the live referent or `none`
(the sweeping of the dead entry does not affect the returned value). -/
def get_clean_ref (registry : Registry) (uid : Nat) : Option SEntity :=
  match assoc_find registry uid with
  | some (some e) => some e
  | _ => none

/-- The registries of a `Workspace` relevant to entity lookup. -/
structure WsRegistry where
  groups : Registry
  objects : Registry
  data : Registry

/-- The `Workspace.find_group`. -/
def find_group (ws : WsRegistry) (uid : Nat) : Option SEntity :=
  get_clean_ref ws.groups uid

/-- The `Workspace.find_data`. -/
def find_data (ws : WsRegistry) (uid : Nat) : Option SEntity :=
  get_clean_ref ws.data uid

/-- The `Workspace.find_object`. -/
def find_object (ws : WsRegistry) (uid : Nat) : Option SEntity :=
  get_clean_ref ws.objects uid

/-- The `Workspace.find_entity`:
`self.find_group(uid) or self.find_data(uid) or self.find_object(uid)`
(Python `or` returns the first non-`None` operand). -/
def find_entity (ws : WsRegistry) (uid : Nat) : Option SEntity :=
  match find_group ws uid with
  | some e => some e
  | none =>
    match find_data ws uid with
    | some e => some e
    | none => find_object ws uid

/-- The `Workspace.list_groups_name` (likewise `list_objects_name`,
`list_data_name`): uid-to-name pairs of the live entries of one registry,
in registry order. -/
def list_registry_name (registry : Registry) : List (Nat × String) :=
  registry.filterMap (fun p => p.2.map (fun e => (p.1, e.name)))

/-- Python `dict.update`: values of keys already in `base` are overwritten in
place; keys new to `base` are appended in `upd` order. -/
def dict_update (base upd : List (Nat × String)) : List (Nat × String) :=
  base.map (fun p => (p.1, ((assoc_find upd p.1).getD p.2))) ++
    upd.filter (fun p => (assoc_find base p.1).isNone)

/-- The `Workspace.list_entities_name`: group names, updated with object names,
updated with data names. -/
def list_entities_name (ws : WsRegistry) : List (Nat × String) :=
  dict_update (dict_update (list_registry_name ws.groups)
    (list_registry_name ws.objects)) (list_registry_name ws.data)

/-- Argument of `Workspace.get_entity`: a `uuid.UUID` or a `str` name. -/
inductive NameOrUid where
  | uid (u : Nat)
  | name (s : String)

/-- The `Workspace.get_entity`: a uid queries directly; a name collects every uid
of `list_entities_name` carrying that name.  An empty uid list yields
`[None]`; otherwise each uid is resolved through `find_entity`. -/
def get_entity (ws : WsRegistry) (query : NameOrUid) : List (Option SEntity) :=
  let list_entity_uid : List Nat :=
    match query with
    | .uid u => [u]
    | .name s =>
      (list_entities_name ws).filterMap
        (fun p => if p.2 = s then some p.1 else none)
  if list_entity_uid.isEmpty then [none]
  else list_entity_uid.map (find_entity ws)

/-- All keys of the three registries, dead entries included, in the order
`groups`, `objects`, `data`. -/
def registry_keys (ws : WsRegistry) : List Nat :=
  (ws.groups ++ ws.objects ++ ws.data).map Prod.fst

/-- The live entities registered in the workspace, in the order
`groups`, `objects`, `data` (the order in which `list_entities_name`
enumerates them when the registries share no key). -/
def live_entities (ws : WsRegistry) : List SEntity :=
  (ws.groups ++ ws.objects ++ ws.data).filterMap Prod.snd

/-- The live `(uid, entity)` pairs of a registry fragment, in order. -/
def live_pairs (l : List (Nat × Option SEntity)) : List (Nat × SEntity) :=
  l.filterMap (fun p => p.2.map (fun e => (p.1, e)))

/-! ### `ObjectBase.validate_association` (objects/object_base.py) -/

/-- The geometry counts an `ObjectBase` subclass exposes: `none` models
`getattr(self, "n_cells", None) is None` (the base-class property raises
`AttributeError`, which `getattr` turns into `None`). -/
structure ObjGeom where
  n_cells : Option Nat
  n_vertices : Option Nat

/-- The slice of a data-attribute dictionary consulted by
`validate_association`: the `association` entry (`none` models both an absent
key and an explicit `None`) and `attributes["values"].ravel().shape[0]`,
the flattened length of the values array. -/
structure DataAttrs where
  association : Option String
  values_len : Nat
  deriving DecidableEq

/-- The `getattr(self, c, None) is not None and values.ravel().shape[0] == self.c`
for a count attribute `c`. -/
def count_matches (count : Option Nat) (len : Nat) : Bool :=
  match count with
  | none => false
  | some n => len == n

/-- The `ObjectBase.validate_association`, as invoked by `ObjectBase.add_data` on
each entry of the data dictionary: when `association` is absent or `None`,
infer `CELL` if the flattened values length equals `n_cells`, else `VERTEX`
if it equals `n_vertices`, else `OBJECT`; the `property_group` argument is
passed through unchanged. -/
def validate_association (o : ObjGeom) (attributes : DataAttrs)
    (property_group : Option String) : DataAttrs × Option String :=
  if attributes.association.isSome then
    (attributes, property_group)
  else if count_matches o.n_cells attributes.values_len then
    ({ attributes with association := some "CELL" }, property_group)
  else if count_matches o.n_vertices attributes.values_len then
    ({ attributes with association := some "VERTEX" }, property_group)
  else
    ({ attributes with association := some "OBJECT" }, property_group)

/-! ### `ObjectBase.add_children` (objects/object_base.py) -/

/-- Runtime class of a prospective child, as discriminated by
`isinstance(child, (Data, PropertyGroup))`. -/
inductive ChildKind where
  | dataKind
  | propGroupKind
  | otherKind
  deriving DecidableEq

/-- A prospective child: its uid and its runtime class. -/
structure Child where
  uid : Nat
  kind : ChildKind
  deriving DecidableEq

/-- The `isinstance(child, (Data, PropertyGroup))`. -/
def accepted_child (c : Child) : Bool :=
  c.kind == .dataKind || c.kind == .propGroupKind

/-- The state of an `ObjectBase` touched by `add_children`: `_children` and
`_property_groups` (`none` models `self._property_groups is None`). -/
structure ObjChildren where
  children : List Child
  property_groups : Option (List Child)
  deriving DecidableEq

/-- The loop of `ObjectBase.add_children`: `children_uids` and
`prop_group_uids` are the uid snapshots taken *before* the loop and are not
updated as children are appended.  Returns the accumulated `_children`,
the accumulated property-group list, and the number of warnings emitted. -/
def add_children_loop (children_uids prop_group_uids : List Nat)
    (cs : List Child) (acc_children acc_pg : List Child) (warns : Nat) :
    List Child × List Child × Nat :=
  match cs with
  | [] => (acc_children, acc_pg, warns)
  | c :: rest =>
    if !(children_uids.contains c.uid) && accepted_child c then
      add_children_loop children_uids prop_group_uids rest
        (acc_children ++ [c])
        (if c.kind == .propGroupKind && !(prop_group_uids.contains c.uid) then
          acc_pg ++ [c]
        else acc_pg)
        warns
    else
      add_children_loop children_uids prop_group_uids rest
        acc_children acc_pg (warns + 1)

/-- The `ObjectBase.add_children`: snapshots `children_uids`/`prop_group_uids`,
runs the loop, then stores the property-group accumulator back only when it
is non-empty (`if property_groups: self._property_groups = property_groups`).
The second component counts the `warnings.warn` calls. -/
def add_children (o : ObjChildren) (cs : List Child) : ObjChildren × Nat :=
  let property_groups := o.property_groups.getD []
  let prop_group_uids := property_groups.map Child.uid
  let children_uids := o.children.map Child.uid
  let r := add_children_loop children_uids prop_group_uids cs
    o.children property_groups 0
  (⟨r.1, if r.2.1.isEmpty then o.property_groups else some r.2.1⟩, r.2.2)

/-! ### `Workspace.copy_to_parent` uid and value semantics
(workspace/workspace.py, objects/object_base.py) -/

/-- The attributes of a copied data entity observable after
`ObjectBase.copy` / `Workspace.copy_to_parent`. -/
structure DataEntity where
  uid : Nat
  parent : Nat
  values : List Int
  deriving DecidableEq

/-- Modelled from the spec: the mask application performed by `Data.copy`
(data/data.py is not under src/) — "copies children whose association is in
Vertex or Cell with `mask` applied to their values": keep the values at the
`True` positions of the mask, in order; no mask keeps every value. -/
def apply_mask (mask : Option (List Bool)) (values : List Int) : List Int :=
  match mask with
  | none => values
  | some m =>
    (values.zip m).filterMap (fun p => if p.2 then some p.1 else none)

/-- The copy of one data entity under a destination parent, combining the
uid assignment of `Workspace.copy_to_parent` with the spec-modelled mask
application above.  `copy_to_parent` keeps the source uid whenever
`parent.workspace.get_entity(entity.uid)[0] is None`, i.e. whenever the
destination workspace has no live entity under that uid; otherwise the uid
entry stays `None` and entity construction draws `fresh_uid` (a `uuid4`).
The copy is created with `parent` set to the target parent. -/
def copy_data_to_parent (dest : WsRegistry) (e : DataEntity) (parent : Nat)
    (mask : Option (List Bool)) (fresh_uid : Nat) : DataEntity :=
  { uid :=
      match find_entity dest e.uid with
      | none => e.uid
      | some _ => fresh_uid
    parent := parent
    values := apply_mask mask e.values }

/-! ## Helper lemmas -/

/-- The `_io_call` against a read-only file with a write mode returns the
read-only error, for every writer function. -/
theorem io_call_readonly {σ : Type} (ws : WsFile) (h : ws.geoh5 = some "r")
    (mode : String) (hm : mode = "r+" ∨ mode = "a") (f : σ → σ) (s : σ) :
    io_call ws f mode s = .error readOnlyMsg := by
  rcases ws with ⟨g⟩
  simp only [WsFile.geoh5] at h
  subst h
  simp only [io_call]
  rw [if_pos ⟨hm, trivial⟩]

/-- The `validate_association` with no provided association always infers one of
`CELL`, `VERTEX`, `OBJECT` by the cell-first cascade. -/
theorem validate_association_eq (o : ObjGeom) (a : DataAttrs)
    (pg : Option String) (h : a.association.isSome = false) :
    validate_association o a pg =
      (⟨some (if count_matches o.n_cells a.values_len then "CELL"
          else if count_matches o.n_vertices a.values_len then "VERTEX"
          else "OBJECT"), a.values_len⟩, pg) := by
  simp only [validate_association, h, Bool.false_eq_true, if_false]
  by_cases h1 : count_matches o.n_cells a.values_len <;>
    by_cases h2 : count_matches o.n_vertices a.values_len <;>
      simp [h1, h2]

/-- The `assoc_find` misses when the key is not among the stored keys. -/
theorem assoc_find_eq_none {α : Type} (l : List (Nat × α)) (k : Nat)
    (h : k ∉ l.map Prod.fst) : assoc_find l k = none := by
  induction l with
  | nil => rfl
  | cons p t ih =>
    obtain ⟨a, b⟩ := p
    simp only [List.map_cons, List.mem_cons, not_or] at h
    simp only [assoc_find]
    rw [if_neg (fun he => h.1 he.symm)]
    exact ih h.2

/-- The `assoc_find` returns the stored value when the keys are unique. -/
theorem assoc_find_of_mem {α : Type} (l : List (Nat × α)) (k : Nat) (v : α)
    (hnd : (l.map Prod.fst).Nodup) (hmem : (k, v) ∈ l) :
    assoc_find l k = some v := by
  induction l with
  | nil => simp at hmem
  | cons p t ih =>
    obtain ⟨a, b⟩ := p
    simp only [List.map_cons, List.nodup_cons] at hnd
    rcases List.mem_cons.mp hmem with heq | hmem'
    · injection heq with h1 h2
      subst h1; subst h2
      simp [assoc_find]
    · have hne : a ≠ k := by
        rintro rfl
        exact hnd.1 (List.mem_map_of_mem Prod.fst hmem')
      simp only [assoc_find]
      rw [if_neg hne]
      exact ih hnd.2 hmem'

/-- A live registry entry dereferences to its entity when keys are unique. -/
theorem get_clean_ref_of_mem (r : Registry) (k : Nat) (e : SEntity)
    (hnd : (r.map Prod.fst).Nodup) (h : (k, some e) ∈ r) :
    get_clean_ref r k = some e := by
  unfold get_clean_ref
  rw [assoc_find_of_mem r k (some e) hnd h]

/-- Lookup of a key foreign to a registry returns `none`. -/
theorem get_clean_ref_none_of_not_key (r : Registry) (k : Nat)
    (h : k ∉ r.map Prod.fst) : get_clean_ref r k = none := by
  unfold get_clean_ref
  rw [assoc_find_eq_none r k h]

/-- Lookup of a uid with no live entry (absent or dead) returns `none`. -/
theorem get_clean_ref_none_of_no_live (r : Registry) (k : Nat)
    (h : ∀ e : SEntity, (k, some e) ∉ r) : get_clean_ref r k = none := by
  induction r with
  | nil => rfl
  | cons p t ih =>
    obtain ⟨a, b⟩ := p
    have ht : ∀ e : SEntity, (k, some e) ∉ t :=
      fun e hmem => h e (List.mem_cons_of_mem _ hmem)
    by_cases ha : a = k
    · subst ha
      cases b with
      | none => simp [get_clean_ref, assoc_find]
      | some e => exact absurd (List.mem_cons_self _ _) (h e)
    · have := ih ht
      simp only [get_clean_ref, assoc_find] at this ⊢
      rw [if_neg ha]
      exact this

/-- The `dict.update` on key-disjoint dictionaries is concatenation. -/
theorem dict_update_of_disjoint (base upd : List (Nat × String))
    (hbu : ∀ k ∈ base.map Prod.fst, k ∉ upd.map Prod.fst)
    (hub : ∀ k ∈ upd.map Prod.fst, k ∉ base.map Prod.fst) :
    dict_update base upd = base ++ upd := by
  unfold dict_update
  have h1 : base.map (fun p => (p.1, (assoc_find upd p.1).getD p.2)) = base := by
    have : ∀ p ∈ base, (p.1, (assoc_find upd p.1).getD p.2) = id p := by
      intro p hp
      rw [assoc_find_eq_none upd p.1
        (hbu p.1 (List.mem_map_of_mem Prod.fst hp))]
      rfl
    rw [List.map_congr_left this, List.map_id]
  have h2 : upd.filter (fun p => (assoc_find base p.1).isNone) = upd := by
    refine List.filter_eq_self.mpr (fun p hp => ?_)
    rw [assoc_find_eq_none base p.1
      (hub p.1 (List.mem_map_of_mem Prod.fst hp))]
    rfl
  rw [h1, h2]

/-- A dead head entry contributes nothing to `live_pairs`. -/
theorem live_pairs_cons_none (a : Nat) (t : List (Nat × Option SEntity)) :
    live_pairs ((a, none) :: t) = live_pairs t := by
  simp [live_pairs, List.filterMap_cons]

/-- A live head entry heads `live_pairs`. -/
theorem live_pairs_cons_some (a : Nat) (e : SEntity)
    (t : List (Nat × Option SEntity)) :
    live_pairs ((a, some e) :: t) = (a, e) :: live_pairs t := by
  simp [live_pairs, List.filterMap_cons]

/-- A dead head entry contributes no name. -/
theorem list_registry_name_cons_none (a : Nat) (t : Registry) :
    list_registry_name ((a, none) :: t) = list_registry_name t := by
  simp [list_registry_name, List.filterMap_cons]

/-- A live head entry heads the name listing. -/
theorem list_registry_name_cons_some (a : Nat) (e : SEntity) (t : Registry) :
    list_registry_name ((a, some e) :: t) =
      (a, e.name) :: list_registry_name t := by
  simp [list_registry_name, List.filterMap_cons]

/-- The name listing of one registry is the name projection of its live
pairs. -/
theorem list_registry_name_eq (r : Registry) :
    list_registry_name r = (live_pairs r).map (fun q => (q.1, q.2.name)) := by
  induction r with
  | nil => rfl
  | cons p t ih =>
    obtain ⟨a, b⟩ := p
    cases b with
    | none => rw [list_registry_name_cons_none, live_pairs_cons_none, ih]
    | some e =>
      rw [list_registry_name_cons_some, live_pairs_cons_some, List.map_cons,
        ih]

/-- The `live_pairs` distributes over append. -/
theorem live_pairs_append (l1 l2 : List (Nat × Option SEntity)) :
    live_pairs (l1 ++ l2) = live_pairs l1 ++ live_pairs l2 :=
  List.filterMap_append l1 l2 _

/-- Membership in `live_pairs` is a live entry of the registry. -/
theorem mem_live_pairs (r : List (Nat × Option SEntity)) (k : Nat)
    (e : SEntity) : (k, e) ∈ live_pairs r ↔ (k, some e) ∈ r := by
  induction r with
  | nil => simp [live_pairs]
  | cons p t ih =>
    obtain ⟨a, b⟩ := p
    cases b with
    | none => rw [live_pairs_cons_none]; simp [ih]
    | some e' => rw [live_pairs_cons_some]; simp [ih]

/-- Keys of the live pairs form a sublist of the registry keys. -/
theorem live_pairs_keys_sublist (l : List (Nat × Option SEntity)) :
    ((live_pairs l).map Prod.fst).Sublist (l.map Prod.fst) := by
  induction l with
  | nil => simp [live_pairs]
  | cons p t ih =>
    obtain ⟨a, b⟩ := p
    cases b with
    | none =>
      rw [live_pairs_cons_none, List.map_cons]
      exact ih.cons a
    | some e =>
      rw [live_pairs_cons_some, List.map_cons, List.map_cons]
      exact ih.cons₂ a

/-- The flat live-entity listing is the entity projection of the live
pairs. -/
theorem filterMap_snd_eq (l : List (Nat × Option SEntity)) :
    l.filterMap Prod.snd = (live_pairs l).map Prod.snd := by
  induction l with
  | nil => rfl
  | cons p t ih =>
    obtain ⟨a, b⟩ := p
    cases b with
    | none =>
      rw [live_pairs_cons_none, List.filterMap_cons]
      exact ih
    | some e =>
      rw [live_pairs_cons_some, List.filterMap_cons, List.map_cons]
      simp only [Prod.snd]
      rw [ih]

/-- Unique registry keys split into per-registry uniqueness and pairwise
key-disjointness of the three registries. -/
theorem registry_keys_parts (ws : WsRegistry)
    (h : (registry_keys ws).Nodup) :
    (ws.groups.map Prod.fst).Nodup ∧ (ws.objects.map Prod.fst).Nodup ∧
    (ws.data.map Prod.fst).Nodup ∧
    (∀ k, k ∈ ws.groups.map Prod.fst → k ∉ ws.objects.map Prod.fst) ∧
    (∀ k, k ∈ ws.groups.map Prod.fst → k ∉ ws.data.map Prod.fst) ∧
    (∀ k, k ∈ ws.objects.map Prod.fst → k ∉ ws.data.map Prod.fst) := by
  unfold registry_keys at h
  rw [List.map_append, List.map_append, List.nodup_append] at h
  obtain ⟨hAB, hC, hdisjABC⟩ := h
  obtain ⟨hA, hB, hAB'⟩ := List.nodup_append.mp hAB
  exact ⟨hA, hB, hC, fun k hk => hAB' hk,
    fun k hk hkC => hdisjABC (List.mem_append_left _ hk) hkC,
    fun k hk hkC => hdisjABC (List.mem_append_right _ hk) hkC⟩

/-- Every live pair of the combined registries is found by `find_entity`
when registry keys are globally unique. -/
theorem find_entity_of_mem_live (ws : WsRegistry)
    (hkeys : (registry_keys ws).Nodup) (k : Nat) (e : SEntity)
    (hmem : (k, e) ∈ live_pairs (ws.groups ++ ws.objects ++ ws.data)) :
    find_entity ws k = some e := by
  obtain ⟨hg, ho, hd, hgo, hgd, hod⟩ := registry_keys_parts ws hkeys
  rw [live_pairs_append, live_pairs_append] at hmem
  rcases List.mem_append.mp hmem with hmem' | hmemd
  · rcases List.mem_append.mp hmem' with hmemg | hmemo
    · have hfg : find_group ws k = some e :=
        get_clean_ref_of_mem _ _ _ hg ((mem_live_pairs _ _ _).mp hmemg)
      simp only [find_entity, hfg]
    · have hraw : (k, some e) ∈ ws.objects := (mem_live_pairs _ _ _).mp hmemo
      have hkey : k ∈ ws.objects.map Prod.fst :=
        List.mem_map_of_mem Prod.fst hraw
      have hfg : find_group ws k = none :=
        get_clean_ref_none_of_not_key _ _ (fun hc => hgo k hc hkey)
      have hfd : find_data ws k = none :=
        get_clean_ref_none_of_not_key _ _ (hod k hkey)
      have hfo : find_object ws k = some e :=
        get_clean_ref_of_mem _ _ _ ho hraw
      simp only [find_entity, hfg, hfd, hfo]
  · have hraw : (k, some e) ∈ ws.data := (mem_live_pairs _ _ _).mp hmemd
    have hkey : k ∈ ws.data.map Prod.fst := List.mem_map_of_mem Prod.fst hraw
    have hfg : find_group ws k = none :=
      get_clean_ref_none_of_not_key _ _ (fun hc => hgd k hc hkey)
    have hfd : find_data ws k = some e := get_clean_ref_of_mem _ _ _ hd hraw
    simp only [find_entity, hfg, hfd]

/-- With globally unique registry keys, `list_entities_name` enumerates
the live pairs of groups, objects and data in order. -/
theorem list_entities_name_eq (ws : WsRegistry)
    (hkeys : (registry_keys ws).Nodup) :
    list_entities_name ws =
      (live_pairs (ws.groups ++ ws.objects ++ ws.data)).map
        (fun q => (q.1, q.2.name)) := by
  obtain ⟨hg, ho, hd, hgo, hgd, hod⟩ := registry_keys_parts ws hkeys
  have keyfact : ∀ r : Registry,
      (list_registry_name r).map Prod.fst = (live_pairs r).map Prod.fst := by
    intro r
    rw [list_registry_name_eq, List.map_map]
    exact List.map_congr_left (fun q _ => rfl)
  have sub : ∀ r : Registry, ∀ k,
      k ∈ (list_registry_name r).map Prod.fst → k ∈ r.map Prod.fst := by
    intro r k hk
    rw [keyfact r] at hk
    exact (live_pairs_keys_sublist r).subset hk
  have hinner : dict_update (list_registry_name ws.groups)
      (list_registry_name ws.objects) =
      list_registry_name ws.groups ++ list_registry_name ws.objects :=
    dict_update_of_disjoint _ _
      (fun k hk hk' => hgo k (sub _ k hk) (sub _ k hk'))
      (fun k hk hk' => hgo k (sub _ k hk') (sub _ k hk))
  have houter : dict_update
      (list_registry_name ws.groups ++ list_registry_name ws.objects)
      (list_registry_name ws.data) =
      (list_registry_name ws.groups ++ list_registry_name ws.objects) ++
        list_registry_name ws.data := by
    refine dict_update_of_disjoint _ _ (fun k hk hk' => ?_)
      (fun k hk hk' => ?_)
    · rw [List.map_append] at hk
      rcases List.mem_append.mp hk with hkg | hko
      · exact hgd k (sub _ k hkg) (sub _ k hk')
      · exact hod k (sub _ k hko) (sub _ k hk')
    · rw [List.map_append] at hk'
      rcases List.mem_append.mp hk' with hkg | hko
      · exact hgd k (sub _ k hkg) (sub _ k hk)
      · exact hod k (sub _ k hko) (sub _ k hk)
  unfold list_entities_name
  rw [hinner, houter, list_registry_name_eq, list_registry_name_eq,
    list_registry_name_eq, live_pairs_append, live_pairs_append,
    List.map_append, List.map_append]

/-- Collecting the keys whose stored name matches `s` is filtering on the
name and projecting to the key. -/
theorem filterMap_if_name (l : List (Nat × SEntity)) (s : String) :
    l.filterMap (fun q => if q.2.name = s then some q.1 else none) =
      (l.filter (fun q => q.2.name = s)).map Prod.fst := by
  induction l with
  | nil => rfl
  | cons q t ih =>
    by_cases hq : q.2.name = s
    · simp [List.filterMap_cons, List.filter_cons, hq, ih]
    · simp [List.filterMap_cons, List.filter_cons, hq, ih]

/-- Filtering the live entities on a name is the entity projection of the
name-filtered live pairs. -/
theorem filter_name_live (ws : WsRegistry) (s : String) :
    (live_entities ws).filter (fun e => e.name = s) =
      ((live_pairs (ws.groups ++ ws.objects ++ ws.data)).filter
        (fun q => q.2.name = s)).map Prod.snd := by
  unfold live_entities
  rw [filterMap_snd_eq, List.filter_map]
  rfl

/-- The `add_children` loop appends to `_children` exactly the accepted
children whose uid misses the pre-loop snapshot, to the property-group
accumulator exactly the appended property groups whose uid misses the
property-group snapshot, and warns once per rejected child. -/
theorem add_children_loop_eq (cuids puids : List Nat) (cs accC accP : List Child)
    (w : Nat) :
    add_children_loop cuids puids cs accC accP w =
      (accC ++ cs.filter (fun c => !(cuids.contains c.uid) && accepted_child c),
       accP ++ cs.filter (fun c =>
         (!(cuids.contains c.uid) && accepted_child c) &&
           (c.kind == .propGroupKind && !(puids.contains c.uid))),
       w + (cs.filter
         (fun c => !(!(cuids.contains c.uid) && accepted_child c))).length) := by
  induction cs generalizing accC accP w with
  | nil => simp [add_children_loop]
  | cons c rest ih =>
    simp only [add_children_loop]
    by_cases h : (!(cuids.contains c.uid) && accepted_child c) = true
    · rw [if_pos h, ih]
      have h12 := h
      simp only [Bool.and_eq_true] at h12
      obtain ⟨h1', h2⟩ := h12
      have h1 : c.uid ∉ cuids := by simpa using h1'
      by_cases hpg : (c.kind == ChildKind.propGroupKind && !(puids.contains c.uid)) = true
      · rw [if_pos hpg]
        have h34 := hpg
        simp only [Bool.and_eq_true] at h34
        obtain ⟨h3', h4'⟩ := h34
        have h3 : c.kind = ChildKind.propGroupKind := by simpa using h3'
        have h4 : c.uid ∉ puids := by simpa using h4'
        simp [List.filter_cons, h1, h2, h3, h4, List.append_assoc]
      · rw [if_neg hpg]
        have hp : ¬ (c.kind = ChildKind.propGroupKind ∧ c.uid ∉ puids) := by
          simpa using hpg
        simp [List.filter_cons, h1, h2, hp, List.append_assoc]
    · rw [if_neg h, ih]
      have hprop : ¬ (c.uid ∉ cuids ∧ accepted_child c = true) := by
        simpa using h
      have hor : c.uid ∈ cuids ∨ accepted_child c = false := by
        by_cases hmem : c.uid ∈ cuids
        · exact Or.inl hmem
        · refine Or.inr ?_
          by_contra hacc
          exact hprop ⟨hmem, by simpa using hacc⟩
      rcases hor with hm | hacc
      · simp [List.filter_cons, hprop, hm]
        omega
      · simp [List.filter_cons, hprop, hacc]
        omega

/-! ## Claims -/

/-- Claim C1: For every workspace whose geoh5 file is open in read-only mode
`"r"`, every write operation routed through the workspace — `save_entity`,
`update_attribute` (on an `on_file` entity), the removal write of
`remove_entity`, and any call through `_io_call` with mode `"r+"` or `"a"` —
returns the read-only error.  The result is the same error for *every*
writer function `f`, so the writer function is never reached. -/
theorem readonly_mode_gates_writes {σ : Type} (ws : WsFile)
    (hro : ws.geoh5 = some "r") (mode : String)
    (hmode : mode = "r+" ∨ mode = "a") (e : EntityRec)
    (hon : e.on_file = true) (f g : σ → σ) (s : σ) :
    io_call ws f mode s = .error readOnlyMsg ∧
    save_entity ws f s = .error readOnlyMsg ∧
    update_attribute ws e f g s = .error readOnlyMsg ∧
    remove_entity_write ws f s = .error readOnlyMsg := by
  have hrplus : ("r+" : String) = "r+" ∨ ("r+" : String) = "a" := Or.inl rfl
  refine ⟨io_call_readonly ws hro mode hmode f s, ?_, ?_, ?_⟩
  · exact io_call_readonly ws hro "r+" hrplus f s
  · simp only [update_attribute, hon, if_true]
    rw [io_call_readonly ws hro "r+" hrplus f s]
    rfl
  · exact io_call_readonly ws hro "r+" hrplus f s

/-- Witness for C1 at a concrete read-only workspace. -/
theorem readonly_mode_gates_writes_witness :
    io_call (⟨some "r"⟩ : WsFile) (fun n : Nat => n + 1) "r+" 0 =
      .error readOnlyMsg ∧
    save_entity (⟨some "r"⟩ : WsFile) (fun n : Nat => n + 1) 0 =
      .error readOnlyMsg ∧
    update_attribute (⟨some "r"⟩ : WsFile) ⟨true⟩ (fun n : Nat => n + 1)
      (fun n : Nat => n + 2) 0 = .error readOnlyMsg ∧
    remove_entity_write (⟨some "r"⟩ : WsFile) (fun n : Nat => n + 1) 0 =
      .error readOnlyMsg :=
  readonly_mode_gates_writes ⟨some "r"⟩ rfl "r+" (Or.inl rfl) ⟨true⟩ rfl
    (fun n => n + 1) (fun n => n + 2) 0

/-- Claim C9: For every successfully constructed `EntityType` instance, the
workspace back-reference is set during construction, and every later
assignment to the `workspace` attribute raises `AssertionError`, so the
owning workspace never changes during the instance's lifetime. -/
theorem entity_type_workspace_set_once (w : WsArg) (uid : Nat)
    (description name : Option String) (t : EntityTypeState)
    (hinit : EntityType_init w uid description name = .ok t) :
    t._workspace.isSome = true ∧
    ∀ w' : WsArg, workspace_setter t w' =
      .error "Cannot change the workspace of an entity type." := by
  cases w with
  | notWorkspace => simp [EntityType_init, workspace_setter] at hinit
  | workspace i =>
    simp only [EntityType_init, workspace_setter, Option.isSome_none,
      Bool.false_eq_true, if_false, Except.ok.injEq] at hinit
    subst hinit
    refine ⟨rfl, fun w' => ?_⟩
    simp [workspace_setter]

/-- Witness for C9: construct an `EntityType` bound to workspace `0`, then
observe that rebinding it to workspace `5` is refused. -/
theorem entity_type_workspace_set_once_witness :
    (⟨false, 1, none, none, some 0⟩ : EntityTypeState)._workspace.isSome =
      true ∧
    workspace_setter (⟨false, 1, none, none, some 0⟩ : EntityTypeState)
      (.workspace 5) =
      .error "Cannot change the workspace of an entity type." := by
  have h := entity_type_workspace_set_once (.workspace 0) 1 none none
    ⟨false, 1, none, none, some 0⟩ rfl
  exact ⟨h.1, h.2 (.workspace 5)⟩

/-- Claim C10: The `Workspace.h5file` setter (reached from the constructor):
a `str` or `pathlib.Path` whose text does not end in `"geoh5"` raises
`ValueError`; one that does is accepted; an `io.BytesIO` buffer is accepted
without any name check; every other value raises `ValueError`. -/
theorem h5file_setter_validation :
    (∀ s : String, endswith_geoh5 s = false →
      h5file_setter (.str s) =
        .error "Input 'h5file' file must have a 'geoh5' extension." ∧
      h5file_setter (.path s) =
        .error "Input 'h5file' file must have a 'geoh5' extension.") ∧
    (∀ s : String, endswith_geoh5 s = true →
      h5file_setter (.str s) = .ok (.str s) ∧
      h5file_setter (.path s) = .ok (.path s)) ∧
    (∀ n : Nat, h5file_setter (.bytes_buffer n) = .ok (.bytes_buffer n)) ∧
    h5file_setter .other =
      .error "The 'h5file' attribute must be a str, pathlib.Path or bytes to the target geoh5 file." := by
  refine ⟨fun s hs => ?_, fun s hs => ?_, fun _ => rfl, rfl⟩
  · constructor <;> simp [h5file_setter, hs]
  · constructor <;> simp [h5file_setter, hs]

/-- Witness for C10: `"data.h5"` is rejected, `"run1.geoh5"` accepted,
a `BytesIO` buffer accepted. -/
theorem h5file_setter_validation_witness :
    h5file_setter (.str "data.h5") =
      .error "Input 'h5file' file must have a 'geoh5' extension." ∧
    h5file_setter (.str "run1.geoh5") = .ok (.str "run1.geoh5") ∧
    h5file_setter (.bytes_buffer 0) = .ok (.bytes_buffer 0) :=
  ⟨(h5file_setter_validation.1 "data.h5" (by decide)).1,
   (h5file_setter_validation.2.1 "run1.geoh5" (by decide)).1,
   h5file_setter_validation.2.2.1 0⟩

/-- Claim C5, code bug:  `validate_value_map` accepts the dictionary
`{0: "zero"}` even though the value under key `0` is not `"Unknown"`,
contradicting the documented invariant of `ReferenceValueMap.map`
("The key '0' is always 'Unknown'."); only the non-negativity of keys is
enforced (a negative key does raise). -/
theorem validate_value_map_zero_not_unknown :
    validate_value_map [((0 : Int), "zero")] = .ok [((0 : Int), "zero")] ∧
    value_map_get [((0 : Int), "zero")] 0 = some "zero" ∧
    "zero" ≠ "Unknown" ∧
    validate_value_map [((-1 : Int), "x")] =
      .error "KeyError: Key must be an positive integer" := by
  refine ⟨rfl, rfl, by decide, rfl⟩

/-- Claim C6, code bug:  `IntegerData.check_type` tests only the *sum* of the
elementwise fractional parts, so the array `[0.5, -0.5]` — whose elements
both have non-zero fractional parts — is accepted and silently truncated to
`[0, 0]` instead of raising `TypeError`.  A single fractional value does
raise. -/
theorem check_type_cancelling_fractions_pass :
    check_type [(1 : ℚ)/2, -((1 : ℚ)/2)] = .ok [0, 0] ∧
    (1 : ℚ)/2 - (astype_int32 ((1 : ℚ)/2) : ℚ) ≠ 0 ∧
    check_type [(1 : ℚ)/2] =
      .error "TypeError: Values cannot have decimal points." := by
  have ha : astype_int32 ((1 : ℚ)/2) = 0 := by
    rw [astype_int32, if_pos (by norm_num)]; norm_num
  have hb : astype_int32 (-((1 : ℚ)/2)) = 0 := by
    rw [astype_int32, if_neg (by norm_num)]; norm_num
  refine ⟨?_, ?_, ?_⟩
  · simp only [check_type, List.map_cons, List.map_nil, ha, hb,
      List.sum_cons, List.sum_nil]
    norm_num
  · rw [ha]; norm_num
  · simp only [check_type, List.map_cons, List.map_nil, ha,
      List.sum_cons, List.sum_nil]
    norm_num

/-- Claim C8: When the `h5repack` compaction at close fails, `close` completes
without raising, no filesystem operation touches the original file, and the
geoh5 file is preserved unmodified at its path; the original is removed and
replaced only when — and after — the repack subprocess succeeds. -/
theorem repack_failure_preserves_original (outcome : RepackOutcome) :
    (close_repack_block outcome).2 = false ∧
    (outcome = .calledProcessError →
      (close_repack_block outcome).1 = [] ∧
      (close_repack_block outcome).1.foldl apply_op .originalBytes =
        .originalBytes) ∧
    (FileOp.removeOriginal ∈ (close_repack_block outcome).1 →
      outcome = .success ∧
      (close_repack_block outcome).1 =
        [.runRepack, .removeOriginal, .moveTempToOriginal]) := by
  cases outcome <;>
    simp [close_repack_block, repack_try_body, subprocess_run_repack,
      apply_op]

/-- Witness for C8 at the failing outcome: no exception escapes and the
original file is untouched. -/
theorem repack_failure_preserves_original_witness :
    (close_repack_block .calledProcessError).2 = false ∧
    (close_repack_block .calledProcessError).1 = [] :=
  ⟨(repack_failure_preserves_original .calledProcessError).1,
   ((repack_failure_preserves_original .calledProcessError).2.1 rfl).1⟩

/-- Claim C3: `validate_association`, as routed through `add_data` with an
absent or `None` association: if the object exposes `n_cells` and the
flattened values length equals it, the association becomes `CELL`; else if
it exposes `n_vertices` and the length equals it, `VERTEX`; otherwise
`OBJECT`.  When both counts equal the length, `CELL` wins, and the
property-group argument passes through unchanged. -/
theorem validate_association_inference (o : ObjGeom) (a : DataAttrs)
    (pg : Option String) (hnone : a.association = none) :
    (o.n_cells = some a.values_len →
      (validate_association o a pg).1.association = some "CELL") ∧
    (count_matches o.n_cells a.values_len = false →
      o.n_vertices = some a.values_len →
      (validate_association o a pg).1.association = some "VERTEX") ∧
    (count_matches o.n_cells a.values_len = false →
      count_matches o.n_vertices a.values_len = false →
      (validate_association o a pg).1.association = some "OBJECT") ∧
    (o.n_cells = some a.values_len → o.n_vertices = some a.values_len →
      (validate_association o a pg).1.association = some "CELL") ∧
    (validate_association o a pg).2 = pg := by
  have hsome : a.association.isSome = false := by rw [hnone]; rfl
  have he := validate_association_eq o a pg hsome
  refine ⟨fun hc => ?_, fun hc hv => ?_, fun hc hv => ?_, fun hc _ => ?_, ?_⟩ <;>
    rw [he] <;> simp_all [count_matches]

/-- Claim C2: `Workspace.get_entity`: a uuid query returns the one-element
list `[find_entity(uid)]` — `[None]` when no live entity is registered under
the uid; a name query returns every live registered entity (groups, then
objects, then data) carrying that name, and `[None]` when there is none.
Registry keys are globally unique, as guaranteed by `insert_once`
registration of `uuid4` identifiers. -/
theorem get_entity_contract (ws : WsRegistry)
    (hkeys : (registry_keys ws).Nodup) :
    (∀ u : Nat, get_entity ws (.uid u) = [find_entity ws u]) ∧
    (∀ u : Nat,
      (∀ e : SEntity, (u, some e) ∉ ws.groups ++ ws.objects ++ ws.data) →
      get_entity ws (.uid u) = [none]) ∧
    (∀ s : String,
      get_entity ws (.name s) =
        if ((live_entities ws).filter (fun e => e.name = s)).isEmpty
        then [none]
        else ((live_entities ws).filter (fun e => e.name = s)).map some) := by
  refine ⟨fun u => by simp [get_entity], fun u hu => ?_, fun s => ?_⟩
  · have h1 : find_group ws u = none :=
      get_clean_ref_none_of_no_live _ _ (fun e he =>
        hu e (List.mem_append_left _ (List.mem_append_left _ he)))
    have h2 : find_data ws u = none :=
      get_clean_ref_none_of_no_live _ _ (fun e he =>
        hu e (List.mem_append_right _ he))
    have h3 : find_object ws u = none :=
      get_clean_ref_none_of_no_live _ _ (fun e he =>
        hu e (List.mem_append_left _ (List.mem_append_right _ he)))
    have hfe : find_entity ws u = none := by
      simp only [find_entity, h1, h2, h3]
    simp [get_entity, hfe]
  · have huids : (list_entities_name ws).filterMap
        (fun p => if p.2 = s then some p.1 else none) =
        ((live_pairs (ws.groups ++ ws.objects ++ ws.data)).filter
          (fun q => q.2.name = s)).map Prod.fst := by
      rw [list_entities_name_eq ws hkeys, List.filterMap_map]
      exact filterMap_if_name _ s
    simp only [get_entity, huids, filter_name_live ws s]
    cases hm : (live_pairs (ws.groups ++ ws.objects ++ ws.data)).filter
        (fun q => q.2.name = s) with
    | nil => rfl
    | cons q qs =>
      have hmem : ∀ x ∈ q :: qs, find_entity ws x.1 = some x.2 := by
        intro x hx
        obtain ⟨k, e⟩ := x
        refine find_entity_of_mem_live ws hkeys k e ?_
        have : (k, e) ∈ (live_pairs
            (ws.groups ++ ws.objects ++ ws.data)).filter
            (fun q => q.2.name = s) := hm ▸ hx
        exact List.mem_of_mem_filter this
      simp only [List.isEmpty_cons, List.map_map]
      refine List.map_congr_left (fun x hx => ?_)
      exact hmem x hx

/-- Witness for C2 on a workspace with a group and an object both named
`"a"`, a dead group entry, and a data entity named `"b"`. -/
theorem get_entity_contract_witness :
    get_entity ⟨[(1, some ⟨1, "a"⟩), (2, none)], [(3, some ⟨3, "a"⟩)],
      [(4, some ⟨4, "b"⟩)]⟩ (.uid 3) =
      [find_entity ⟨[(1, some ⟨1, "a"⟩), (2, none)], [(3, some ⟨3, "a"⟩)],
        [(4, some ⟨4, "b"⟩)]⟩ 3] ∧
    get_entity ⟨[(1, some ⟨1, "a"⟩), (2, none)], [(3, some ⟨3, "a"⟩)],
      [(4, some ⟨4, "b"⟩)]⟩ (.uid 7) = [none] ∧
    get_entity ⟨[(1, some ⟨1, "a"⟩), (2, none)], [(3, some ⟨3, "a"⟩)],
      [(4, some ⟨4, "b"⟩)]⟩ (.name "a") =
      [some ⟨1, "a"⟩, some ⟨3, "a"⟩] ∧
    get_entity ⟨[(1, some ⟨1, "a"⟩), (2, none)], [(3, some ⟨3, "a"⟩)],
      [(4, some ⟨4, "b"⟩)]⟩ (.name "zzz") = [none] := by
  have h := get_entity_contract ⟨[(1, some ⟨1, "a"⟩), (2, none)],
    [(3, some ⟨3, "a"⟩)], [(4, some ⟨4, "b"⟩)]⟩ (by decide)
  refine ⟨h.1 3, h.2.1 7 ?_, ?_, ?_⟩
  · intro e he
    simp [Prod.ext_iff] at he
  · rw [h.2.2 "a"]
    rfl
  · rw [h.2.2 "zzz"]
    rfl

/-- Claim C7, counterexample:  `copy_to_parent` keeps the source uid whenever
it is free in the destination workspace: copying a data entity of uid 5 into
an empty destination workspace yields a copy whose uid is still 5, refuting
"produces a new entity whose uid differs from e.uid". -/
theorem copy_keeps_uid_cex :
    ¬ ((copy_data_to_parent ⟨[], [], []⟩ ⟨5, 0, [1, 2]⟩ 7 none 99).uid ≠
      (⟨5, 0, [1, 2]⟩ : DataEntity).uid) := by
  decide

/-- Claim C7, amended:  Copying an entity under a parent yields a copy whose
`parent` is the target parent and whose values equal the source values
restricted by the optional mask; the copy's uid differs from the source uid
exactly when an entity with that uid is already live in the destination
workspace (a fresh `uuid4` is then drawn); when the uid is free there —
in particular when copying into another workspace that has never seen it —
the source uid is preserved. -/
theorem copy_to_parent_semantics (dest : WsRegistry) (e : DataEntity)
    (p : Nat) (mask : Option (List Bool)) (fresh : Nat) :
    (copy_data_to_parent dest e p mask fresh).parent = p ∧
    (copy_data_to_parent dest e p mask fresh).values =
      apply_mask mask e.values ∧
    (find_entity dest e.uid = none →
      (copy_data_to_parent dest e p mask fresh).uid = e.uid) ∧
    (∀ e' : SEntity, find_entity dest e.uid = some e' → fresh ≠ e.uid →
      (copy_data_to_parent dest e p mask fresh).uid = fresh ∧
      (copy_data_to_parent dest e p mask fresh).uid ≠ e.uid) := by
  refine ⟨rfl, rfl, fun h => ?_, fun e' h hf => ?_⟩
  · simp [copy_data_to_parent, h]
  · constructor <;> simp [copy_data_to_parent, h, hf]

/-- Witness for C7 (amended): with uid 5 live in the destination the copy
draws the fresh uid 99; the parent and masked values carry over. -/
theorem copy_to_parent_semantics_witness :
    (copy_data_to_parent ⟨[(5, some ⟨5, "x"⟩)], [], []⟩ ⟨5, 0, [1, 2, 3]⟩ 7
      (some [true, false, true]) 99).parent = 7 ∧
    (copy_data_to_parent ⟨[(5, some ⟨5, "x"⟩)], [], []⟩ ⟨5, 0, [1, 2, 3]⟩ 7
      (some [true, false, true]) 99).values = [1, 3] ∧
    (copy_data_to_parent ⟨[(5, some ⟨5, "x"⟩)], [], []⟩ ⟨5, 0, [1, 2, 3]⟩ 7
      (some [true, false, true]) 99).uid = 99 ∧
    (copy_data_to_parent ⟨[(5, some ⟨5, "x"⟩)], [], []⟩ ⟨5, 0, [1, 2, 3]⟩ 7
      (some [true, false, true]) 99).uid ≠ 5 := by
  have h := copy_to_parent_semantics ⟨[(5, some ⟨5, "x"⟩)], [], []⟩
    ⟨5, 0, [1, 2, 3]⟩ 7 (some [true, false, true]) 99
  refine ⟨h.1, ?_, ?_, ?_⟩
  · rw [h.2.1]; rfl
  · exact (h.2.2.2 ⟨5, "x"⟩ rfl (by decide)).1
  · exact (h.2.2.2 ⟨5, "x"⟩ rfl (by decide)).2

/-- Claim C4, counterexample:  `add_children` deduplicates against a snapshot
of the child uids taken before the loop, so a call whose list contains the
same uid twice appends it twice: starting from an object with no children,
`add_children [d, d]` for a data child `d` of uid 1 leaves uid 1 appearing
twice in the child list, refuting "after the call each child uid appears at
most once in o's child list". -/
theorem add_children_duplicate_uid_cex :
    (add_children ⟨[], none⟩
      [⟨1, .dataKind⟩, ⟨1, .dataKind⟩]).1.children =
      [⟨1, .dataKind⟩, ⟨1, .dataKind⟩] ∧
    ¬ (((add_children ⟨[], none⟩
        [⟨1, .dataKind⟩, ⟨1, .dataKind⟩]).1.children.map Child.uid).count 1
        ≤ 1) := by
  refine ⟨rfl, by decide⟩

/-- Claim C4, amended:  `add_children` appends, in order, exactly the elements
of the call list that are of an accepted type (`Data` or `PropertyGroup`) and
whose uid is absent from the *pre-call* child list; every other element
leaves the child list unchanged and emits one non-fatal warning.  Each
appended `PropertyGroup` ends up registered (by uid) in the object's
property-group list.  Consequently each child uid appears at most once after
the call provided the call list itself repeats no uid (deduplication is
against the pre-call snapshot only, so an in-call duplicate is appended
twice). -/
theorem add_children_snapshot_semantics (o : ObjChildren) (cs : List Child) :
    (add_children o cs).1.children =
      o.children ++ cs.filter
        (fun c => !((o.children.map Child.uid).contains c.uid) &&
          accepted_child c) ∧
    (add_children o cs).2 =
      (cs.filter (fun c => !(!((o.children.map Child.uid).contains c.uid) &&
        accepted_child c))).length ∧
    (∀ c ∈ cs.filter
        (fun c => !((o.children.map Child.uid).contains c.uid) &&
          accepted_child c),
      c.kind = .propGroupKind →
      c.uid ∈ ((add_children o cs).1.property_groups.getD []).map Child.uid) ∧
    ((o.children.map Child.uid).Nodup → (cs.map Child.uid).Nodup →
      ((add_children o cs).1.children.map Child.uid).Nodup) := by
  have hloop := add_children_loop_eq (o.children.map Child.uid)
    ((o.property_groups.getD []).map Child.uid) cs
    o.children (o.property_groups.getD []) 0
  refine ⟨?_, ?_, ?_, ?_⟩
  · simp [add_children, hloop]
  · simp [add_children, hloop]
  · intro c hc hkind
    simp only [add_children, hloop]
    set P0 := o.property_groups.getD [] with hP0
    set extra := cs.filter (fun c =>
      (!((o.children.map Child.uid).contains c.uid) && accepted_child c) &&
        (c.kind == ChildKind.propGroupKind &&
          !((P0.map Child.uid).contains c.uid))) with hextra
    by_cases hpu : c.uid ∈ P0.map Child.uid
    · have hne : (P0 ++ extra).isEmpty = false := by
        rcases P0 with _ | ⟨x, xs⟩
        · simp at hpu
        · rfl
      simp only [hne, Bool.false_eq_true, if_false, Option.getD_some,
        List.map_append]
      exact List.mem_append_left _ hpu
    · have hmemx : c ∈ extra := by
        rw [hextra]
        rw [List.mem_filter]
        rw [List.mem_filter] at hc
        refine ⟨hc.1, ?_⟩
        have h1 : (c.kind == ChildKind.propGroupKind) = true := by
          simp [hkind]
        have h2 : ((P0.map Child.uid).contains c.uid) = false := by
          simpa using hpu
        rw [hc.2, Bool.true_and, h1, Bool.true_and, h2]
        rfl
      have hne : (P0 ++ extra).isEmpty = false := by
        rcases hx : P0 ++ extra with _ | ⟨x, xs⟩
        · rcases List.append_eq_nil.mp hx with ⟨-, h2⟩
          rw [h2] at hmemx
          simp at hmemx
        · rfl
      simp only [hne, Bool.false_eq_true, if_false, Option.getD_some,
        List.map_append]
      exact List.mem_append_right _ (List.mem_map_of_mem Child.uid hmemx)
  · intro hno hnc
    have hch : (add_children o cs).1.children =
        o.children ++ cs.filter
          (fun c => !((o.children.map Child.uid).contains c.uid) &&
            accepted_child c) := by
      simp [add_children, hloop]
    rw [hch, List.map_append, List.nodup_append]
    refine ⟨hno, ?_, ?_⟩
    · exact ((List.filter_sublist cs).map Child.uid).nodup hnc
    · intro a ha ha'
      rcases List.mem_map.mp ha' with ⟨c, hcmem, hcuid⟩
      rcases List.mem_filter.mp hcmem with ⟨-, hpred⟩
      simp only [Bool.and_eq_true] at hpred
      have : c.uid ∉ o.children.map Child.uid := by
        simpa using hpred.1
      rw [hcuid] at this
      exact this ha

/-- Witness for C4 (amended) on an object holding a data child of uid 1 and
a call list with a fresh data child, a duplicate of uid 1, a fresh property
group, and a rejected entity. -/
theorem add_children_snapshot_semantics_witness :
    (add_children ⟨[⟨1, .dataKind⟩], none⟩
      [⟨2, .dataKind⟩, ⟨1, .dataKind⟩, ⟨3, .propGroupKind⟩,
        ⟨4, .otherKind⟩]).1.children =
      [⟨1, .dataKind⟩, ⟨2, .dataKind⟩, ⟨3, .propGroupKind⟩] ∧
    (add_children ⟨[⟨1, .dataKind⟩], none⟩
      [⟨2, .dataKind⟩, ⟨1, .dataKind⟩, ⟨3, .propGroupKind⟩,
        ⟨4, .otherKind⟩]).2 = 2 ∧
    (3 : Nat) ∈ ((add_children ⟨[⟨1, .dataKind⟩], none⟩
      [⟨2, .dataKind⟩, ⟨1, .dataKind⟩, ⟨3, .propGroupKind⟩,
        ⟨4, .otherKind⟩]).1.property_groups.getD []).map Child.uid ∧
    ((add_children ⟨[⟨1, .dataKind⟩], none⟩
      [⟨2, .dataKind⟩, ⟨1, .dataKind⟩, ⟨3, .propGroupKind⟩,
        ⟨4, .otherKind⟩]).1.children.map Child.uid).Nodup := by
  have h := add_children_snapshot_semantics ⟨[⟨1, .dataKind⟩], none⟩
    [⟨2, .dataKind⟩, ⟨1, .dataKind⟩, ⟨3, .propGroupKind⟩, ⟨4, .otherKind⟩]
  refine ⟨?_, ?_, ?_, ?_⟩
  · rw [h.1]; rfl
  · rw [h.2.1]; rfl
  · exact h.2.2.1 ⟨3, .propGroupKind⟩ (by decide) rfl
  · exact h.2.2.2 (by decide) (by decide)

/-- Witness for C3: on an object with 3 cells and 3 vertices, a value array
of flattened length 3 and no association is inferred as `CELL`, and with 4
cells and 3 vertices it is inferred as `VERTEX`. -/
theorem validate_association_inference_witness :
    (validate_association ⟨some 3, some 3⟩ ⟨none, 3⟩ none).1.association =
      some "CELL" ∧
    (validate_association ⟨some 4, some 3⟩ ⟨none, 3⟩ none).1.association =
      some "VERTEX" :=
  ⟨(validate_association_inference ⟨some 3, some 3⟩ ⟨none, 3⟩ none
      rfl).2.2.2.1 rfl rfl,
   (validate_association_inference ⟨some 4, some 3⟩ ⟨none, 3⟩ none
      rfl).2.1 (by decide) rfl⟩

end Geoh5
